import Mathlib

/-!
Shallow embedding of the `sequent` discrete-event simulation engine
(crate sources `src/event.rs`, `src/sim.rs`, `src/persistence.rs`).

Events in the source are trait objects (`Box<dyn Event<State = S>>`).  The
embedding is parametrised by a type `E` of events together with an
`EventSpec E S` giving the behaviour of each event kind: its `name`, its
canonical string encoding `encode` (Rust `to_string`), and `apply`.  Rust
`Event::apply` receives `&mut S` and `&mut Queue` and returns
`Result<(), TransitionError>`; the embedding renders it as a pure function
returning the post-state (also on failure, modelling in-place mutation of
`&mut S` before an error return), the list of insertions the event staged
on the queue in staging order, and an optional `TransitionError`.
-/

/-- Rust `TransitionError(pub Cow<str>)` from `src/event.rs`: produced by
`Event::apply` when an event cannot be evaluated. -/
structure TransitionError where
  message : String
deriving DecidableEq

/-- Result of one `Event::apply` call: the state left in `&mut S` when the
call returns, the `(index, event)` pairs staged on the `&mut Queue` in the
order they were staged, and the returned error, if any. -/
structure ApplyOut (E S : Type) where
  state : S
  insertions : List (Nat × E)
  error : Option TransitionError

/-- Behaviour of an event type: the `Named`, `ToString` and `Event` trait
methods of `src/event.rs`, for a type `E` standing for the set of concrete
event kinds behind `Box<dyn Event<State = S>>`. -/
structure EventSpec (E S : Type) where
  name : E → String
  encode : E → String
  apply : E → S → ApplyOut E S

/-- Rust `Scenario<S>` from `src/event.rs`: the initial state plus a
timeline of boxed events. -/
structure Scenario (E S : Type) where
  initial : S
  timeline : List E
deriving DecidableEq

/-- Rust `Queue<'a, S>` from `src/event.rs`: a transient view over the
timeline, scoped to one `apply` call, accumulating staged insertions. -/
structure Queue (E : Type) where
  offset : Nat
  timeline : List E
  insertions : List (Nat × E)
deriving DecidableEq

/-- Preconditions asserted by `Queue::new` (`src/event.rs` lines 29-30):
`offset >= 1` and `offset <= timeline.len()`.  Violation panics in Rust. -/
def Queue.newPre (offset : Nat) (timeline : List E) : Prop :=
  1 ≤ offset ∧ offset ≤ timeline.length

instance (offset : Nat) (timeline : List E) : Decidable (Queue.newPre offset timeline) :=
  inferInstanceAs (Decidable (_ ∧ _))

/-- Rust `Queue::new(offset, timeline)`: starts with no insertions.  The
asserted preconditions are captured separately by `Queue.newPre`. -/
def Queue.new (offset : Nat) (timeline : List E) : Queue E :=
  { offset := offset, timeline := timeline, insertions := [] }

/-- Rust `Queue::insert_later` (`src/event.rs` lines 44-48): stages an
insertion by pushing `(index, event)` onto the insertions list.  The Rust
assertion `index <= timeline.len() + insertions.len() - offset` is modelled
by returning `none` (a panic) when it fails. -/
def Queue.insert_later (q : Queue E) (index : Nat) (event : E) : Option (Queue E) :=
  let lim := q.timeline.length + q.insertions.length - q.offset
  if index ≤ lim then
    some { q with insertions := q.insertions ++ [(index, event)] }
  else
    none

/-- Rust `Queue::push_later`: inserts at the current combined end of the
queue. -/
def Queue.push_later (q : Queue E) (event : E) : Option (Queue E) :=
  q.insert_later (q.timeline.length + q.insertions.length - q.offset) event

/-- Rust `Queue::past`: the slice `timeline[..offset - 1]`. -/
def Queue.past (q : Queue E) : List E :=
  q.timeline.take (q.offset - 1)

/-- Rust `Queue::future`: the slice `timeline[offset..]`. -/
def Queue.future (q : Queue E) : List E :=
  q.timeline.drop q.offset

/-- Rust `Queue::into_inner`: returns `(offset, timeline, insertions)`. -/
def Queue.into_inner (q : Queue E) : Nat × List E × List (Nat × E) :=
  (q.offset, q.timeline, q.insertions)

/-- Rust `process_insertions` (`src/event.rs` lines 75-79): for each staged
`(index, event)` in order, `timeline.insert(offset + index, event)`. -/
def process_insertions (offset : Nat) (insertions : List (Nat × E))
    (timeline : List E) : List E :=
  insertions.foldl (fun tl ie => tl.insertIdx (offset + ie.1) ie.2) timeline

/-- Rust `SimulationError<S>` from `src/sim.rs`.  The `ReadScenario` and
`WriteScenario` variants wrap persistence errors; they are carried here as
plain messages since no modelled operation produces them. -/
inductive SimulationError (E : Type) where
  | timelineExhausted
  | transition (err : TransitionError)
  | truncationRequired (event : E)
  | readScenario (message : String)
  | writeScenario (message : String)
deriving DecidableEq

/-- Rust `Simulation<S>` from `src/sim.rs`: the owned scenario, the derived
current state, and the cursor. -/
structure Simulation (E S : Type) where
  scenario : Scenario E S
  current_state : S
  cursor : Nat
deriving DecidableEq

/-- Rust `impl From<Scenario<S>> for Simulation<S>`: clones the initial
state into `current_state` and starts the cursor at 0. -/
def Simulation.fromScenario (scenario : Scenario E S) : Simulation E S :=
  { scenario := scenario, current_state := scenario.initial, cursor := 0 }

/-- Rust `Simulation::step` (`src/sim.rs` lines 40-51).  Mutation of the
simulation is modelled by returning the new simulation next to the optional
error.  When `apply` fails, `current_state` keeps the state the failing
`apply` left behind and the queue (with its staged insertions) is dropped.
The inner `none` branch is unreachable whenever `cursor <= timeline.length`
(Rust indexes the timeline unconditionally there). -/
def Simulation.step (spec : EventSpec E S) (sim : Simulation E S) :
    Simulation E S × Option (SimulationError E) :=
  if sim.cursor = sim.scenario.timeline.length then
    (sim, some .timelineExhausted)
  else
    match sim.scenario.timeline[sim.cursor]? with
    | none => (sim, some .timelineExhausted)
    | some event =>
      let queue := Queue.new (sim.cursor + 1) sim.scenario.timeline
      let out := spec.apply event sim.current_state
      match out.error with
      | some err => ({ sim with current_state := out.state }, some (.transition err))
      | none =>
        let queue := { queue with insertions := out.insertions }
        let (offset, _, insertions) := queue.into_inner
        ({ scenario := { initial := sim.scenario.initial,
                         timeline := process_insertions offset insertions sim.scenario.timeline },
           current_state := out.state,
           cursor := sim.cursor + 1 }, none)

/-- Rust `Simulation::reset` (`src/sim.rs` lines 55-61): reclones the
initial state and rewinds the cursor to 0. -/
def Simulation.reset (sim : Simulation E S) : Simulation E S :=
  { sim with current_state := sim.scenario.initial, cursor := 0 }

/-- While-loop body of `Simulation::jump`: `while self.cursor < location {
self.step()? }`.  Every successful step increases the cursor by exactly
one, so the loop performs at most `location - cursor` iterations; that
bound is supplied as a structural fuel argument by `Simulation.jump`, which
makes the fuel-exhausted branch and the loop-condition-false branch
coincide. -/
def jumpLoop (spec : EventSpec E S) :
    Nat → Simulation E S → Nat → Simulation E S × Option (SimulationError E)
  | 0, sim, _ => (sim, none)
  | fuel + 1, sim, location =>
    if sim.cursor < location then
      match Simulation.step spec sim with
      | (next, some err) => (next, some err)
      | (next, none) => jumpLoop spec fuel next location
    else
      (sim, none)

/-- Rust `Simulation::jump` (`src/sim.rs` lines 70-87): fails with
`TimelineExhausted` when `location > timeline.len()` (no mutation), resets
first when `location < cursor`, then steps until the cursor reaches
`location`, propagating the first step error. -/
def Simulation.jump (spec : EventSpec E S) (sim : Simulation E S) (location : Nat) :
    Simulation E S × Option (SimulationError E) :=
  if location > sim.scenario.timeline.length then
    (sim, some .timelineExhausted)
  else if location < sim.cursor then
    jumpLoop spec location (Simulation.reset sim) location
  else
    jumpLoop spec (location - sim.cursor) sim location

/-- Rust `Simulation::run` (`src/sim.rs` lines 96-102): `while self.cursor <
self.scenario.timeline.len() { self.step()? }`.  The Rust loop has no a
priori iteration bound (steps may grow the timeline), so the embedding
indexes it by fuel: every terminating execution of `run` is `runFuel n` for
all sufficiently large `n`, and smaller `n` yield prefixes of the loop,
which are themselves states reachable by individual steps. -/
def runFuel (spec : EventSpec E S) :
    Nat → Simulation E S → Simulation E S × Option (SimulationError E)
  | 0, sim => (sim, none)
  | fuel + 1, sim =>
    if sim.cursor < sim.scenario.timeline.length then
      match Simulation.step spec sim with
      | (next, some err) => (next, some err)
      | (next, none) => runFuel spec fuel next
    else
      (sim, none)

/-- Rust `Simulation::push_event` (`src/sim.rs` lines 113-119): rejects the
push with `TruncationRequired`, handing the very same event back, unless
the cursor sits at the end of the timeline. -/
def Simulation.push_event (sim : Simulation E S) (event : E) :
    Simulation E S × Option (SimulationError E) :=
  if sim.cursor ≠ sim.scenario.timeline.length then
    (sim, some (.truncationRequired event))
  else
    ({ sim with scenario := { initial := sim.scenario.initial,
                              timeline := sim.scenario.timeline ++ [event] } }, none)

/-- Rust `Simulation::truncate` (`src/sim.rs` lines 123-125):
`self.scenario.timeline.truncate(self.cursor)`. -/
def Simulation.truncate (sim : Simulation E S) : Simulation E S :=
  { sim with scenario := { initial := sim.scenario.initial,
                           timeline := sim.scenario.timeline.take sim.cursor } }

/-- Rust `Simulation::set_scenario` (`src/sim.rs` lines 133-139): replaces
the scenario wholesale, then resets. -/
def Simulation.set_scenario (sim : Simulation E S) (scenario : Scenario E S) :
    Simulation E S :=
  Simulation.reset { sim with scenario := scenario }

/-- Calls `step` exactly `n` times (stopping at the first error), the
"reset followed by `location` steps" experiment of the specification. -/
def stepN (spec : EventSpec E S) :
    Nat → Simulation E S → Simulation E S × Option (SimulationError E)
  | 0, sim => (sim, none)
  | n + 1, sim =>
    match Simulation.step spec sim with
    | (next, some err) => (next, some err)
    | (next, none) => stepN spec n next

/-- State reached by applying one event, ignoring its staged insertions and
error flag: the state component of `apply`. -/
def applyState (spec : EventSpec E S) (s : S) (e : E) : S :=
  (spec.apply e s).state

/-- Left fold of `apply` over a list of events, starting from `s`. -/
def foldState (spec : EventSpec E S) (s : S) (events : List E) : S :=
  events.foldl (applyState spec) s

/-- Recognises results that carry a `Transition` error, i.e. operations in
which some `apply` call returned a `TransitionError`. -/
def isTransitionErr : Option (SimulationError E) → Bool
  | some (.transition _) => true
  | _ => false

/-- States reachable from `a` through the public `Simulation` operations,
restricted to histories in which no `apply` call returned a
`TransitionError` (the error of an operation that internally steps is the
error of its first failing step, so checking the operation result suffices). -/
inductive Reaches (spec : EventSpec E S) : Simulation E S → Simulation E S → Prop
  | refl (a : Simulation E S) : Reaches spec a a
  | step (a sim : Simulation E S) :
      Reaches spec a sim →
      isTransitionErr (Simulation.step spec sim).2 = false →
      Reaches spec a (Simulation.step spec sim).1
  | reset (a sim : Simulation E S) :
      Reaches spec a sim → Reaches spec a (Simulation.reset sim)
  | jump (a sim : Simulation E S) (location : Nat) :
      Reaches spec a sim →
      isTransitionErr (Simulation.jump spec sim location).2 = false →
      Reaches spec a (Simulation.jump spec sim location).1
  | run (a sim : Simulation E S) (fuel : Nat) :
      Reaches spec a sim →
      isTransitionErr (runFuel spec fuel sim).2 = false →
      Reaches spec a (runFuel spec fuel sim).1
  | push_event (a sim : Simulation E S) (event : E) :
      Reaches spec a sim → Reaches spec a (Simulation.push_event sim event).1
  | truncate (a sim : Simulation E S) :
      Reaches spec a sim → Reaches spec a (Simulation.truncate sim)
  | set_scenario (a sim : Simulation E S) (scenario : Scenario E S) :
      Reaches spec a sim → Reaches spec a (Simulation.set_scenario sim scenario)

/-- Invariant tying a simulation to its scenario: the cursor stays within
the timeline, the current state is the left fold of `apply` over the
timeline prefix below the cursor, and every `apply` in that prefix
succeeds on its fold state (no transition error occurred mid-fold). -/
structure Invariant (spec : EventSpec E S) (sim : Simulation E S) : Prop where
  cursor_le : sim.cursor ≤ sim.scenario.timeline.length
  state_eq : sim.current_state =
    foldState spec sim.scenario.initial (sim.scenario.timeline.take sim.cursor)
  replay_ok : ∀ i, i < sim.cursor → ∀ e, sim.scenario.timeline[i]? = some e →
    (spec.apply e (foldState spec sim.scenario.initial
      (sim.scenario.timeline.take i))).error = none

/-- Event specifications in which no `apply` call ever stages an insertion
on the queue. -/
def NoInsertions (spec : EventSpec E S) : Prop :=
  ∀ e s, (spec.apply e s).insertions = []

/-- Rust `ParseEventError(pub Cow<str>)` from `src/event.rs`. -/
structure ParseEventError where
  message : String
deriving DecidableEq

/-- Rust `InvalidEventParserSpec(String)` from `src/event.rs`: raised when
the parsers given to a `Decoder` conflict amongst themselves. -/
structure InvalidEventParserSpec where
  message : String
deriving DecidableEq

/-- Rust `dyn NamedEventParser<S>` from `src/event.rs`: a parser keyed by a
name, reconstructing an event from its encoded representation. -/
structure NamedEventParser (E : Type) where
  name : String
  parse : String → Except ParseEventError E

/-- Rust `Decoder<S>` from `src/event.rs`: a name-keyed registry of
parsers.  The `BTreeMap` is modelled as an association list with unique
keys (construction rejects duplicates). -/
structure Decoder (E : Type) where
  by_name : List (String × NamedEventParser E)

/-- Loop body of `impl TryFrom<Vec<...>> for Decoder` (`src/event.rs` lines
209-222): each parser is inserted into the map under its name; if the name
is already present, construction fails with a duplicate-name error. -/
def tryFromLoop : List (NamedEventParser E) → List (String × NamedEventParser E) →
    Except InvalidEventParserSpec (Decoder E)
  | [], by_name => .ok { by_name := by_name }
  | parser :: rest, by_name =>
    if (by_name.lookup parser.name).isSome then
      .error { message := "duplicate event parser for " ++ parser.name }
    else
      tryFromLoop rest (by_name ++ [(parser.name, parser)])

/-- Rust `Decoder::try_from(parsers)` (`src/event.rs` lines 206-223). -/
def Decoder.tryFrom (parsers : List (NamedEventParser E)) :
    Except InvalidEventParserSpec (Decoder E) :=
  tryFromLoop parsers []

/-- Rust `Decoder::decode` (`src/event.rs` lines 191-197): looks the parser
up by name, failing with a descriptive error when the name is unknown, and
otherwise returns the parser result verbatim. -/
def Decoder.decode (d : Decoder E) (name encoded : String) :
    Except ParseEventError E :=
  match d.by_name.lookup name with
  | none => .error { message := "no event parser for " ++ name }
  | some parser => parser.parse encoded

/-- Rust `PersistentEvent` from `src/persistence.rs`: the `(name, encoded)`
pair persisted for one event. -/
structure PersistentEvent where
  name : String
  encoded : String
deriving DecidableEq

/-- Rust `PersistentScenario<S>` from `src/persistence.rs`: the DTO form of
a scenario. -/
structure PersistentScenario (S : Type) where
  initial : S
  timeline : List PersistentEvent
deriving DecidableEq

/-- Rust `impl From<&Scenario<S>> for PersistentScenario<S>`
(`src/persistence.rs` lines 37-51): clones the initial state and maps every
timeline event to its `(name(), to_string())` pair. -/
def PersistentScenario.ofScenario (spec : EventSpec E S) (scenario : Scenario E S) :
    PersistentScenario S :=
  { initial := scenario.initial,
    timeline := scenario.timeline.map fun event =>
      { name := spec.name event, encoded := spec.encode event } }

/-- Loop of `PersistentScenario::decode` (`src/persistence.rs` lines
60-64): decodes each persistent event in order, aborting on the first
failure. -/
def decodeTimeline (decoder : Decoder E) :
    List PersistentEvent → Except ParseEventError (List E)
  | [] => .ok []
  | pe :: rest =>
    match decoder.decode pe.name pe.encoded with
    | .error err => .error err
    | .ok event =>
      match decodeTimeline decoder rest with
      | .error err => .error err
      | .ok tail => .ok (event :: tail)

/-- Rust `PersistentScenario::decode` (`src/persistence.rs` lines 59-70):
rebuilds a `Scenario`, carrying the initial state through unchanged. -/
def PersistentScenario.decode (ps : PersistentScenario S) (decoder : Decoder E) :
    Except ParseEventError (Scenario E S) :=
  match decodeTimeline decoder ps.timeline with
  | .error err => .error err
  | .ok timeline => .ok { initial := ps.initial, timeline := timeline }

/-- Round-trip property of one event kind, as assumed by the specification:
decoding the name/encoding pair of an event yields an event with the same
name and the same encoding. -/
def RoundTrips (spec : EventSpec E S) (decoder : Decoder E) (event : E) : Prop :=
  ∃ event2, decoder.decode (spec.name event) (spec.encode event) = .ok event2 ∧
    spec.name event2 = spec.name event ∧ spec.encode event2 = spec.encode event

/-!
Concrete fixtures used by witnesses and counterexamples: a small closed
event alphabet over state `Nat`.
-/

/-- Concrete event alphabet for tests: a pure increment, an event staging
the insertion of an increment directly after itself, an event staging three
insertions at one index, a failing event mutating the state before its
error, a failing event that also stages an insertion, and inert filler
events. -/
inductive Ev where
  | incr
  | insIncr
  | stage3
  | fail
  | failIns
  | evA
  | evB
  | evC
  | noop
deriving DecidableEq

/-- Behaviour of the concrete alphabet `Ev`. -/
def evApply : Ev → Nat → ApplyOut Ev Nat
  | .incr, s => { state := s + 1, insertions := [], error := none }
  | .insIncr, s => { state := s, insertions := [(0, .incr)], error := none }
  | .stage3, s => { state := s, insertions := [(2, .evA), (2, .evB), (2, .evC)], error := none }
  | .fail, s => { state := s + 100, insertions := [], error := some { message := "boom" } }
  | .failIns, s => { state := s + 100, insertions := [(0, .incr)],
                     error := some { message := "boom" } }
  | .evA, s => { state := s, insertions := [], error := none }
  | .evB, s => { state := s, insertions := [], error := none }
  | .evC, s => { state := s, insertions := [], error := none }
  | .noop, s => { state := s, insertions := [], error := none }

/-- Name of each concrete event. -/
def evName : Ev → String
  | .incr => "incr"
  | .insIncr => "insIncr"
  | .stage3 => "stage3"
  | .fail => "fail"
  | .failIns => "failIns"
  | .evA => "evA"
  | .evB => "evB"
  | .evC => "evC"
  | .noop => "noop"

/-- Concrete event specification over `Ev` and state `Nat`; the encoding is
the name itself. -/
def testSpec : EventSpec Ev Nat :=
  { name := evName, encode := evName, apply := evApply }

/-- Variant of `testSpec` whose events never stage insertions: same states
and errors, empty insertion lists. -/
def pureSpec : EventSpec Ev Nat :=
  { name := evName, encode := evName,
    apply := fun e s => { state := (evApply e s).state, insertions := [],
                          error := (evApply e s).error } }

/-- Concrete one-parser alphabet for decoder and persistence tests. -/
def unitParser : NamedEventParser Unit :=
  { name := "u", parse := fun _ => .ok () }

/-- Concrete decoder holding `unitParser`. -/
def unitDecoder : Decoder Unit :=
  { by_name := [("u", unitParser)] }

/-- Concrete event specification over `Unit` events, matching
`unitParser`. -/
def unitSpec : EventSpec Unit Nat :=
  { name := fun _ => "u", encode := fun _ => "e", apply := fun _ s => { state := s, insertions := [], error := none } }

/-- Parser that rejects every input, for surfacing parser-own errors. -/
def rejectParser : NamedEventParser Unit :=
  { name := "r", parse := fun s => .error { message := "bad payload " ++ s } }

/-!
Helper lemmas about the simulation operations.
-/

/-- Characterisation of `step` when the event at the cursor applies without
error: the staged insertions are committed at offset `cursor + 1` and the
cursor advances by one. -/
theorem step_of_apply_ok (spec : EventSpec E S) (sim : Simulation E S) (e : E)
    (he : sim.scenario.timeline[sim.cursor]? = some e)
    (hok : (spec.apply e sim.current_state).error = none) :
    Simulation.step spec sim =
      ({ scenario :=
           { initial := sim.scenario.initial,
             timeline := process_insertions (sim.cursor + 1)
               (spec.apply e sim.current_state).insertions sim.scenario.timeline },
         current_state := (spec.apply e sim.current_state).state,
         cursor := sim.cursor + 1 }, none) := by
  have hlt : sim.cursor < sim.scenario.timeline.length := by
    rcases List.getElem?_eq_some_iff.1 he with ⟨h, _⟩
    exact h
  have hne : sim.cursor ≠ sim.scenario.timeline.length := Nat.ne_of_lt hlt
  simp [Simulation.step, hne, he, hok, Queue.new, Queue.into_inner]

/-- Characterisation of `step` when the event at the cursor fails: only the
current state changes, the staged insertions are dropped with the queue,
and the transition error is propagated. -/
theorem step_of_apply_err (spec : EventSpec E S) (sim : Simulation E S) (e : E)
    (err : TransitionError)
    (he : sim.scenario.timeline[sim.cursor]? = some e)
    (herr : (spec.apply e sim.current_state).error = some err) :
    Simulation.step spec sim =
      ({ sim with current_state := (spec.apply e sim.current_state).state },
        some (.transition err)) := by
  have hlt : sim.cursor < sim.scenario.timeline.length := by
    rcases List.getElem?_eq_some_iff.1 he with ⟨h, _⟩
    exact h
  have hne : sim.cursor ≠ sim.scenario.timeline.length := Nat.ne_of_lt hlt
  simp [Simulation.step, hne, he, herr, Queue.new, Queue.into_inner]

/-- Characterisation of `step` when the cursor is parked at the end of the
timeline. -/
theorem step_of_exhausted (spec : EventSpec E S) (sim : Simulation E S)
    (h : sim.cursor = sim.scenario.timeline.length) :
    Simulation.step spec sim = (sim, some .timelineExhausted) := by
  simp [Simulation.step, h]

/-- Every `step` falls into one of three cases: timeline exhausted, a
failing apply, or a successful apply with committed insertions. -/
theorem step_rec (spec : EventSpec E S) (sim : Simulation E S) :
    Simulation.step spec sim = (sim, some .timelineExhausted) ∨
    (∃ e err, sim.scenario.timeline[sim.cursor]? = some e ∧
      (spec.apply e sim.current_state).error = some err ∧
      Simulation.step spec sim =
        ({ sim with current_state := (spec.apply e sim.current_state).state },
          some (.transition err))) ∨
    (∃ e, sim.scenario.timeline[sim.cursor]? = some e ∧
      (spec.apply e sim.current_state).error = none ∧
      Simulation.step spec sim =
        ({ scenario :=
             { initial := sim.scenario.initial,
               timeline := process_insertions (sim.cursor + 1)
                 (spec.apply e sim.current_state).insertions sim.scenario.timeline },
           current_state := (spec.apply e sim.current_state).state,
           cursor := sim.cursor + 1 }, none)) := by
  by_cases hc : sim.cursor = sim.scenario.timeline.length
  · exact Or.inl (step_of_exhausted spec sim hc)
  · have he := Option.eq_none_or_eq_some sim.scenario.timeline[sim.cursor]?
    rcases he with he | ⟨e, he⟩
    · left
      simp [Simulation.step, hc, he]
    · rcases Option.eq_none_or_eq_some (spec.apply e sim.current_state).error with
        herr | ⟨err, herr⟩
      · exact Or.inr (Or.inr ⟨e, he, herr, step_of_apply_ok spec sim e he herr⟩)
      · exact Or.inr (Or.inl ⟨e, err, he, herr, step_of_apply_err spec sim e err he herr⟩)

/-- Inserting at an index no smaller than `k` leaves the first `k` elements
untouched. -/
theorem take_insertIdx_of_le (a : E) :
    ∀ (k n : Nat) (l : List E), k ≤ n → (List.insertIdx n a l).take k = l.take k
  | 0, _, _, _ => by simp
  | k + 1, 0, l, h => absurd h (by omega)
  | k + 1, n + 1, [], _ => by simp
  | k + 1, n + 1, b :: l, h => by
    simp only [List.insertIdx_succ_cons, List.take_succ_cons, List.cons.injEq, true_and]
    exact take_insertIdx_of_le a k n l (Nat.le_of_succ_le_succ h)

/-- Committing insertions at an offset no smaller than `k` leaves the first
`k` timeline entries untouched. -/
theorem take_process_insertions (k : Nat) :
    ∀ (insertions : List (Nat × E)) (offset : Nat) (timeline : List E), k ≤ offset →
      (process_insertions offset insertions timeline).take k = timeline.take k
  | [], _, _, _ => rfl
  | ie :: rest, offset, timeline, h => by
    have hk : k ≤ offset + ie.1 := Nat.le_trans h (Nat.le_add_right _ _)
    calc (process_insertions offset (ie :: rest) timeline).take k
        = (process_insertions offset rest (timeline.insertIdx (offset + ie.1) ie.2)).take k := rfl
      _ = (timeline.insertIdx (offset + ie.1) ie.2).take k :=
          take_process_insertions k rest offset _ h
      _ = timeline.take k := take_insertIdx_of_le ie.2 k _ timeline hk

/-- Committing insertions never shrinks the timeline. -/
theorem length_le_process_insertions :
    ∀ (insertions : List (Nat × E)) (offset : Nat) (timeline : List E),
      timeline.length ≤ (process_insertions offset insertions timeline).length
  | [], _, _ => Nat.le_refl _
  | ie :: rest, offset, timeline =>
    Nat.le_trans (List.length_le_length_insertIdx timeline ie.2 (offset + ie.1))
      (length_le_process_insertions rest offset _)

/-- A `step` never shrinks the timeline. -/
theorem step_len_mono (spec : EventSpec E S) (sim : Simulation E S) :
    sim.scenario.timeline.length ≤
      (Simulation.step spec sim).1.scenario.timeline.length := by
  rcases step_rec spec sim with h | ⟨e, err, _, _, h⟩ | ⟨e, _, _, h⟩ <;> rw [h]
  exact length_le_process_insertions _ _ _

/-- A `step` never changes the initial state of the scenario. -/
theorem step_initial_eq (spec : EventSpec E S) (sim : Simulation E S) :
    (Simulation.step spec sim).1.scenario.initial = sim.scenario.initial := by
  rcases step_rec spec sim with h | ⟨e, err, _, _, h⟩ | ⟨e, _, _, h⟩ <;> rw [h]

/-- A successful `step` advances the cursor by exactly one. -/
theorem step_ok_cursor (spec : EventSpec E S) (sim : Simulation E S)
    (h : (Simulation.step spec sim).2 = none) :
    (Simulation.step spec sim).1.cursor = sim.cursor + 1 := by
  rcases step_rec spec sim with hs | ⟨e, err, _, _, hs⟩ | ⟨e, _, _, hs⟩ <;>
    rw [hs] at h ⊢ <;> simp_all

/-- C4: a `TimelineExhausted` failure never mutates the simulation.
`step()` at `cursor = len(timeline)` (in particular on an empty timeline)
returns `TimelineExhausted` with the simulation unchanged, and
`jump(location)` with `location > len(timeline)` returns
`TimelineExhausted` with the simulation unchanged. -/
theorem c4_exhausted_no_mutation (spec : EventSpec E S) (sim : Simulation E S) :
    (sim.cursor = sim.scenario.timeline.length →
      Simulation.step spec sim = (sim, some .timelineExhausted)) ∧
    (∀ location, sim.scenario.timeline.length < location →
      Simulation.jump spec sim location = (sim, some .timelineExhausted)) := by
  constructor
  · intro h
    exact step_of_exhausted spec sim h
  · intro location h
    simp [Simulation.jump, h]

/-- Witness for C4: on the empty-timeline simulation, `step` and `jump 1`
both fail with `TimelineExhausted` and leave the simulation untouched. -/
theorem c4_exhausted_no_mutation_witness :
    Simulation.step testSpec (Simulation.fromScenario { initial := 0, timeline := [] }) =
      (Simulation.fromScenario { initial := 0, timeline := [] }, some .timelineExhausted) ∧
    Simulation.jump testSpec (Simulation.fromScenario { initial := 0, timeline := [] }) 1 =
      (Simulation.fromScenario { initial := 0, timeline := [] }, some .timelineExhausted) :=
  ⟨(c4_exhausted_no_mutation testSpec _).1 rfl,
   (c4_exhausted_no_mutation testSpec _).2 1 (by decide)⟩

/-- C5: `push_event` at `cursor = len(timeline)` appends the event and
succeeds, growing the timeline by exactly one; at `cursor < len(timeline)`
it returns `TruncationRequired` carrying the identical event and leaves the
simulation unmodified. -/
theorem c5_push_event (sim : Simulation E S) (event : E) :
    (sim.cursor = sim.scenario.timeline.length →
      Simulation.push_event sim event =
        ({ sim with scenario := { initial := sim.scenario.initial,
                                  timeline := sim.scenario.timeline ++ [event] } }, none) ∧
      (Simulation.push_event sim event).1.scenario.timeline.length =
        sim.scenario.timeline.length + 1) ∧
    (sim.cursor < sim.scenario.timeline.length →
      Simulation.push_event sim event = (sim, some (.truncationRequired event))) := by
  constructor
  · intro h
    have heq : Simulation.push_event sim event =
        ({ sim with scenario := { initial := sim.scenario.initial,
                                  timeline := sim.scenario.timeline ++ [event] } }, none) := by
      simp [Simulation.push_event, h]
    refine ⟨heq, ?_⟩
    rw [heq]
    simp
  · intro h
    have hne : sim.cursor ≠ sim.scenario.timeline.length := Nat.ne_of_lt h
    simp [Simulation.push_event, hne]

/-- Witness for C5: pushing onto an exhausted simulation appends; pushing
mid-timeline is rejected with the same event handed back. -/
theorem c5_push_event_witness :
    Simulation.push_event (Simulation.fromScenario { initial := 0, timeline := [] }) Ev.incr =
      ({ scenario := { initial := 0, timeline := [Ev.incr] },
         current_state := 0, cursor := 0 }, none) ∧
    Simulation.push_event (Simulation.fromScenario { initial := 0, timeline := [Ev.noop] }) Ev.incr =
      (Simulation.fromScenario { initial := 0, timeline := [Ev.noop] },
        some (.truncationRequired Ev.incr)) :=
  ⟨((c5_push_event (Simulation.fromScenario { initial := 0, timeline := [] }) Ev.incr).1 rfl).1,
   (c5_push_event (Simulation.fromScenario { initial := 0, timeline := [Ev.noop] }) Ev.incr).2
     (by decide)⟩

/-- C6: `truncate` keeps exactly the first `cursor` timeline entries
(dropping `timeline[cursor..]`), leaves `current_state` and `cursor`
unchanged, and is idempotent. -/
theorem c6_truncate (sim : Simulation E S) :
    (Simulation.truncate sim).scenario.timeline = sim.scenario.timeline.take sim.cursor ∧
    (Simulation.truncate sim).current_state = sim.current_state ∧
    (Simulation.truncate sim).cursor = sim.cursor ∧
    Simulation.truncate (Simulation.truncate sim) = Simulation.truncate sim := by
  refine ⟨rfl, rfl, rfl, ?_⟩
  simp [Simulation.truncate, List.take_take]

/-- C9: whenever `step` reaches the point where it builds its `Queue`
(cursor strictly inside the timeline), the offset it passes, `cursor + 1`,
satisfies both `Queue::new` assertions, so the panic branch is unreachable
from `step`. -/
theorem c9_step_queue_pre (spec : EventSpec E S) (sim : Simulation E S)
    (h : sim.cursor < sim.scenario.timeline.length) :
    Queue.newPre (sim.cursor + 1) sim.scenario.timeline :=
  ⟨Nat.succ_le_succ (Nat.zero_le _), h⟩

/-- Witness for C9: a one-event timeline with the cursor at 0. -/
theorem c9_step_queue_pre_witness :
    Queue.newPre (0 + 1) [Ev.noop] :=
  c9_step_queue_pre testSpec (Simulation.fromScenario { initial := 0, timeline := [Ev.noop] })
    (by decide)

/-- C10: when the `apply` of the event at the cursor returns a
`TransitionError`, `step` leaves the cursor and the timeline exactly as
they were, discards every insertion the event staged on the queue, and
keeps only the state mutation the failing `apply` performed. -/
theorem c10_failed_step_frame (spec : EventSpec E S) (sim : Simulation E S) (e : E)
    (err : TransitionError)
    (he : sim.scenario.timeline[sim.cursor]? = some e)
    (herr : (spec.apply e sim.current_state).error = some err) :
    Simulation.step spec sim =
      ({ sim with current_state := (spec.apply e sim.current_state).state },
        some (.transition err)) :=
  step_of_apply_err spec sim e err he herr

/-- Witness for C10: `failIns` stages an insertion and then fails; the
step drops the staged insertion, keeps the timeline and cursor, and keeps
only the state mutation. -/
theorem c10_failed_step_frame_witness :
    Simulation.step testSpec (Simulation.fromScenario { initial := 0, timeline := [Ev.failIns] }) =
      ({ scenario := { initial := 0, timeline := [Ev.failIns] },
         current_state := 100, cursor := 0 },
        some (.transition { message := "boom" })) :=
  c10_failed_step_frame testSpec
    (Simulation.fromScenario { initial := 0, timeline := [Ev.failIns] })
    Ev.failIns { message := "boom" } rfl rfl

/-- C3: a successful `step` splices every staged `(index, event)` pair into
the timeline at absolute position `offset + index = cursor + 1 + index`, in
staging order; concretely a single event staging `insert_later(0, incr)`
yields the timeline `[insIncr, incr]`, and an event staging three
insertions at index 2 yields those events in reverse staging order
`[evC, evB, evA]` at that position. -/
theorem c3_insertion_ordering :
    (Simulation.step testSpec
        (Simulation.fromScenario { initial := 0, timeline := [Ev.insIncr] })).1.scenario.timeline =
      [Ev.insIncr, Ev.incr] ∧
    (Simulation.step testSpec
        (Simulation.fromScenario
          { initial := 0, timeline := [Ev.stage3, Ev.noop, Ev.noop] })).1.scenario.timeline =
      [Ev.stage3, Ev.noop, Ev.noop, Ev.evC, Ev.evB, Ev.evA] ∧
    ∀ (E S : Type) (spec : EventSpec E S) (sim : Simulation E S) (e : E),
      sim.scenario.timeline[sim.cursor]? = some e →
      (spec.apply e sim.current_state).error = none →
      (Simulation.step spec sim).1.scenario.timeline =
        process_insertions (sim.cursor + 1)
          (spec.apply e sim.current_state).insertions sim.scenario.timeline := by
  refine ⟨by decide, by decide, ?_⟩
  intro E S spec sim e he hok
  rw [step_of_apply_ok spec sim e he hok]

/-- Witness for C3: the general splice statement applied to the concrete
one-event scenario. -/
theorem c3_insertion_ordering_witness :
    (Simulation.step testSpec
        (Simulation.fromScenario { initial := 0, timeline := [Ev.insIncr] })).1.scenario.timeline =
      process_insertions (0 + 1) [(0, Ev.incr)] [Ev.insIncr] :=
  c3_insertion_ordering.2.2 Ev Nat testSpec
    (Simulation.fromScenario { initial := 0, timeline := [Ev.insIncr] })
    Ev.insIncr rfl rfl

/-- Lookup distributes over list append, preferring the left list. -/
theorem lookup_append {A : Type} (k : String) :
    ∀ (l1 l2 : List (String × A)),
      (l1 ++ l2).lookup k = ((l1.lookup k).orElse fun _ => l2.lookup k)
  | [], l2 => by simp [List.lookup]
  | (a, b) :: l1, l2 => by
    rcases hb : k == a with _ | _ <;>
      simp [List.lookup, hb, lookup_append k l1 l2]

/-- Whenever decoder construction succeeds, none of the remaining parser
names was already present in the accumulated map. -/
theorem tryFromLoop_ok_lookup :
    ∀ (parsers : List (NamedEventParser E)) (acc : List (String × NamedEventParser E))
      (d : Decoder E), tryFromLoop parsers acc = .ok d →
      ∀ q ∈ parsers, acc.lookup q.name = none := by
  intro parsers
  induction parsers with
  | nil =>
    intro acc d _ q hq
    cases hq
  | cons p rest ih =>
    intro acc d h q hq
    rw [tryFromLoop] at h
    by_cases hs : (acc.lookup p.name).isSome = true
    · simp [hs] at h
    · simp only [hs, Bool.false_eq_true, if_false] at h
      rcases List.mem_cons.1 hq with hq | hq
      · rw [hq]
        exact Option.not_isSome_iff_eq_none.1 hs
      · have hrec := ih _ _ h q hq
        rw [lookup_append] at hrec
        rcases hacc : acc.lookup q.name with _ | v
        · rfl
        · rw [hacc] at hrec
          simp [Option.orElse] at hrec

/-- Every construction failure of the decoder is a duplicate-name error. -/
theorem tryFromLoop_error_shape :
    ∀ (parsers : List (NamedEventParser E)) (acc : List (String × NamedEventParser E))
      (err : InvalidEventParserSpec), tryFromLoop parsers acc = .error err →
      ∃ n, err = { message := "duplicate event parser for " ++ n } := by
  intro parsers
  induction parsers with
  | nil =>
    intro acc err h
    simp [tryFromLoop] at h
  | cons p rest ih =>
    intro acc err h
    rw [tryFromLoop] at h
    by_cases hs : (acc.lookup p.name).isSome = true
    · simp only [hs, if_true, Except.error.injEq] at h
      exact ⟨p.name, h.symm⟩
    · simp only [hs, Bool.false_eq_true, if_false] at h
      exact ih _ _ h

/-- Whenever decoder construction succeeds, the parser names were pairwise
distinct. -/
theorem tryFromLoop_ok_nodup :
    ∀ (parsers : List (NamedEventParser E)) (acc : List (String × NamedEventParser E))
      (d : Decoder E), tryFromLoop parsers acc = .ok d →
      (parsers.map NamedEventParser.name).Nodup := by
  intro parsers
  induction parsers with
  | nil =>
    intro acc d _
    simp
  | cons p rest ih =>
    intro acc d h
    rw [tryFromLoop] at h
    by_cases hs : (acc.lookup p.name).isSome = true
    · simp [hs] at h
    · simp only [hs, Bool.false_eq_true, if_false] at h
      rw [List.map_cons, List.nodup_cons]
      refine ⟨?_, ih _ _ h⟩
      intro hmem
      rcases List.mem_map.1 hmem with ⟨q, hq, hqname⟩
      have hrec := tryFromLoop_ok_lookup rest _ d h q hq
      rw [lookup_append, hqname] at hrec
      rcases hacc : acc.lookup p.name with _ | v <;>
        rw [hacc] at hrec <;> simp [Option.orElse, List.lookup] at hrec

/-- C7: building a decoder from parsers among which two share a name fails
at construction time with a duplicate-name error; decoding an unknown name
fails with a no-parser error naming the missing name; decoding a known name
whose parser rejects the payload returns that parser error unchanged. -/
theorem c7_decoder_errors {E : Type} :
    (∀ (parsers : List (NamedEventParser E)),
      ¬ (parsers.map NamedEventParser.name).Nodup →
      ∃ n, Decoder.tryFrom parsers =
        .error { message := "duplicate event parser for " ++ n }) ∧
    (∀ (d : Decoder E) (name encoded : String),
      d.by_name.lookup name = none →
      d.decode name encoded = .error { message := "no event parser for " ++ name }) ∧
    (∀ (d : Decoder E) (name encoded : String) (p : NamedEventParser E)
      (err : ParseEventError),
      d.by_name.lookup name = some p →
      p.parse encoded = .error err →
      d.decode name encoded = .error err) := by
  refine ⟨?_, ?_, ?_⟩
  · intro parsers hdup
    rcases htf : Decoder.tryFrom parsers with err | d
    · rcases tryFromLoop_error_shape parsers [] err htf with ⟨n, hn⟩
      exact ⟨n, by rw [hn]⟩
    · exact absurd (tryFromLoop_ok_nodup parsers [] d htf) hdup
  · intro d name encoded h
    simp [Decoder.decode, h]
  · intro d name encoded p err hp herr
    simp [Decoder.decode, hp, herr]

/-- Witness for C7: two copies of the same parser are rejected at build
time; an unknown name and a rejecting parser surface the expected errors. -/
theorem c7_decoder_errors_witness :
    (∃ n, Decoder.tryFrom [unitParser, unitParser] =
      .error { message := "duplicate event parser for " ++ n }) ∧
    Decoder.decode { by_name := [("u", unitParser)] } "x" "p" =
      .error { message := "no event parser for " ++ "x" } ∧
    Decoder.decode { by_name := [("r", rejectParser)] } "r" "bad" =
      .error { message := "bad payload " ++ "bad" } :=
  ⟨c7_decoder_errors.1 [unitParser, unitParser] (by decide),
   c7_decoder_errors.2.1 { by_name := [("u", unitParser)] } "x" "p" rfl,
   c7_decoder_errors.2.2 { by_name := [("r", rejectParser)] } "r" "bad" rejectParser
     { message := "bad payload " ++ "bad" } rfl rfl⟩

/-- Decoding the persisted form of a timeline whose events round-trip
succeeds and reproduces the same persisted pairs, in order. -/
theorem decodeTimeline_roundtrip (spec : EventSpec E S) (decoder : Decoder E) :
    ∀ (tl : List E), (∀ e ∈ tl, RoundTrips spec decoder e) →
      ∃ tl2, decodeTimeline decoder
          (tl.map fun e => { name := spec.name e, encoded := spec.encode e }) = .ok tl2 ∧
        (tl2.map fun e => ({ name := spec.name e, encoded := spec.encode e } : PersistentEvent)) =
          tl.map fun e => { name := spec.name e, encoded := spec.encode e } := by
  intro tl
  induction tl with
  | nil =>
    intro _
    exact ⟨[], rfl, rfl⟩
  | cons e rest ih =>
    intro h
    rcases h e (List.mem_cons_self e rest) with ⟨e2, hdec, hname, henc⟩
    rcases ih (fun x hx => h x (List.mem_cons_of_mem e hx)) with ⟨tl2, hrest, hmap⟩
    refine ⟨e2 :: tl2, ?_, ?_⟩
    · simp only [List.map_cons, decodeTimeline, hdec, hrest]
    · simp [hmap, hname, henc]

/-- C8: for a scenario whose event kinds round-trip through the decoder,
flattening to a `PersistentScenario`, decoding it back, and flattening the
result again yields the original `PersistentScenario` (same initial state,
same ordered name/encoded pairs). -/
theorem c8_persistence_roundtrip (spec : EventSpec E S) (decoder : Decoder E)
    (scenario : Scenario E S)
    (h : ∀ e ∈ scenario.timeline, RoundTrips spec decoder e) :
    ∃ scenario2,
      (PersistentScenario.ofScenario spec scenario).decode decoder = .ok scenario2 ∧
      PersistentScenario.ofScenario spec scenario2 =
        PersistentScenario.ofScenario spec scenario := by
  rcases decodeTimeline_roundtrip spec decoder scenario.timeline h with ⟨tl2, hok, hmap⟩
  refine ⟨{ initial := scenario.initial, timeline := tl2 }, ?_, ?_⟩
  · simp only [PersistentScenario.decode, PersistentScenario.ofScenario, hok]
  · simp only [PersistentScenario.ofScenario]
    rw [hmap]

/-- Witness for C8: a two-event scenario over the unit event kind. -/
theorem c8_persistence_roundtrip_witness :
    ∃ scenario2,
      (PersistentScenario.ofScenario unitSpec
        { initial := 0, timeline := [(), ()] }).decode unitDecoder = .ok scenario2 ∧
      PersistentScenario.ofScenario unitSpec scenario2 =
        PersistentScenario.ofScenario unitSpec { initial := 0, timeline := [(), ()] } :=
  c8_persistence_roundtrip unitSpec unitDecoder { initial := 0, timeline := [(), ()] }
    (fun _ _ => ⟨(), rfl, rfl, rfl⟩)

/-- Two lists agreeing on their first `k` elements agree at every index
below `k`. -/
theorem getElem?_eq_of_take_eq {l1 l2 : List E} {k i : Nat}
    (h : l1.take k = l2.take k) (hik : i < k) : l1[i]? = l2[i]? := by
  have h1 : (l1.take k)[i]? = l1[i]? := by
    simp [List.getElem?_take, hik]
  have h2 : (l2.take k)[i]? = l2[i]? := by
    simp [List.getElem?_take, hik]
  rw [← h1, ← h2, h]

/-- Two lists agreeing on their first `k` elements agree on every shorter
prefix. -/
theorem take_eq_of_take_eq {l1 l2 : List E} {k i : Nat}
    (h : l1.take k = l2.take k) (hik : i ≤ k) : l1.take i = l2.take i := by
  have h1 : l1.take i = (l1.take k).take i := by
    rw [List.take_take, inf_eq_left.mpr hik]
  have h2 : l2.take i = (l2.take k).take i := by
    rw [List.take_take, inf_eq_left.mpr hik]
  rw [h1, h2, h]

/-- A step that the reachability relation admits (not a transition error)
preserves the simulation invariant. -/
theorem invariant_step (spec : EventSpec E S) (sim : Simulation E S)
    (hInv : Invariant spec sim)
    (hnt : isTransitionErr (Simulation.step spec sim).2 = false) :
    Invariant spec (Simulation.step spec sim).1 := by
  rcases step_rec spec sim with hs | ⟨e, err, he, herr, hs⟩ | ⟨e, he, hok, hs⟩
  · rw [hs]
    exact hInv
  · rw [hs] at hnt
    simp [isTransitionErr] at hnt
  · have hlt : sim.cursor < sim.scenario.timeline.length := by
      rcases List.getElem?_eq_some_iff.1 he with ⟨h, _⟩
      exact h
    rw [hs]
    have htake : (process_insertions (sim.cursor + 1)
          (spec.apply e sim.current_state).insertions sim.scenario.timeline).take (sim.cursor + 1) =
        sim.scenario.timeline.take (sim.cursor + 1) :=
      take_process_insertions (sim.cursor + 1) _ (sim.cursor + 1) sim.scenario.timeline
        (Nat.le_refl _)
    have hsucc : sim.scenario.timeline.take (sim.cursor + 1) =
        sim.scenario.timeline.take sim.cursor ++ [e] := by
      rw [List.take_succ, he]
      rfl
    have hlen : sim.scenario.timeline.length ≤
        (process_insertions (sim.cursor + 1)
          (spec.apply e sim.current_state).insertions sim.scenario.timeline).length :=
      length_le_process_insertions _ _ _
    refine ⟨?_, ?_, ?_⟩
    · show sim.cursor + 1 ≤ (process_insertions (sim.cursor + 1)
        (spec.apply e sim.current_state).insertions sim.scenario.timeline).length
      omega
    · show (spec.apply e sim.current_state).state =
        foldState spec sim.scenario.initial
          ((process_insertions (sim.cursor + 1)
            (spec.apply e sim.current_state).insertions sim.scenario.timeline).take (sim.cursor + 1))
      rw [htake, hsucc, foldState, List.foldl_append]
      have hfold : List.foldl (applyState spec) sim.scenario.initial
          (List.take sim.cursor sim.scenario.timeline) = sim.current_state := hInv.state_eq.symm
      rw [hfold]
      rfl
    · intro i hi e2 he2
      have hi1 : i < sim.cursor + 1 := hi
      have he2m : (process_insertions (sim.cursor + 1)
          (spec.apply e sim.current_state).insertions sim.scenario.timeline)[i]? = some e2 := he2
      have hgl := getElem?_eq_of_take_eq htake hi1
      rw [hgl] at he2m
      have htki := take_eq_of_take_eq htake (Nat.le_of_lt hi1)
      show (spec.apply e2 (foldState spec sim.scenario.initial
        ((process_insertions (sim.cursor + 1)
          (spec.apply e sim.current_state).insertions sim.scenario.timeline).take i))).error = none
      rw [htki]
      rcases Nat.lt_or_ge i sim.cursor with hcase | hcase
      · exact hInv.replay_ok i hcase e2 he2m
      · have hieq : i = sim.cursor := Nat.le_antisymm (Nat.le_of_lt_succ hi1) hcase
        subst hieq
        rw [he] at he2m
        injection he2m with hee
        subst hee
        rw [← hInv.state_eq]
        exact hok

/-- Resetting establishes the invariant outright. -/
theorem invariant_reset (spec : EventSpec E S) (sim : Simulation E S) :
    Invariant spec (Simulation.reset sim) := by
  refine ⟨Nat.zero_le _, rfl, ?_⟩
  intro i hi
  exact absurd hi (Nat.not_lt_zero i)

/-- The initial simulation built from a scenario satisfies the invariant. -/
theorem invariant_fromScenario (spec : EventSpec E S) (scenario : Scenario E S) :
    Invariant spec (Simulation.fromScenario scenario) := by
  refine ⟨Nat.zero_le _, rfl, ?_⟩
  intro i hi
  exact absurd hi (Nat.not_lt_zero i)

/-- Pushing an event preserves the invariant. -/
theorem invariant_push_event (spec : EventSpec E S) (sim : Simulation E S) (event : E)
    (hInv : Invariant spec sim) :
    Invariant spec (Simulation.push_event sim event).1 := by
  by_cases h : sim.cursor = sim.scenario.timeline.length
  · have heq : Simulation.push_event sim event =
        ({ sim with scenario := { initial := sim.scenario.initial,
                                  timeline := sim.scenario.timeline ++ [event] } }, none) := by
      simp [Simulation.push_event, h]
    rw [heq]
    have hle : sim.cursor ≤ sim.scenario.timeline.length := hInv.cursor_le
    have htake : (sim.scenario.timeline ++ [event]).take sim.cursor =
        sim.scenario.timeline.take sim.cursor := List.take_append_of_le_length hle
    refine ⟨?_, ?_, ?_⟩
    · show sim.cursor ≤ (sim.scenario.timeline ++ [event]).length
      rw [List.length_append]
      omega
    · show sim.current_state =
        foldState spec sim.scenario.initial ((sim.scenario.timeline ++ [event]).take sim.cursor)
      rw [htake]
      exact hInv.state_eq
    · intro i hi e2 he2
      have hi2 : i < sim.cursor := hi
      have hilt : i < sim.scenario.timeline.length := Nat.lt_of_lt_of_le hi2 hle
      have he2m : (sim.scenario.timeline ++ [event])[i]? = some e2 := he2
      rw [List.getElem?_append_left hilt] at he2m
      show (spec.apply e2 (foldState spec sim.scenario.initial
        ((sim.scenario.timeline ++ [event]).take i))).error = none
      rw [take_eq_of_take_eq htake (Nat.le_of_lt hi2)]
      exact hInv.replay_ok i hi2 e2 he2m
  · simp [Simulation.push_event, h]
    exact hInv

/-- Truncation preserves the invariant. -/
theorem invariant_truncate (spec : EventSpec E S) (sim : Simulation E S)
    (hInv : Invariant spec sim) :
    Invariant spec (Simulation.truncate sim) := by
  have hle := hInv.cursor_le
  refine ⟨?_, ?_, ?_⟩
  · show sim.cursor ≤ (sim.scenario.timeline.take sim.cursor).length
    rw [List.length_take]
    omega
  · show sim.current_state = foldState spec sim.scenario.initial
      ((sim.scenario.timeline.take sim.cursor).take sim.cursor)
    rw [List.take_take, inf_idem]
    exact hInv.state_eq
  · intro i hi e2 he2
    have hi2 : i < sim.cursor := hi
    have he2m : (sim.scenario.timeline.take sim.cursor)[i]? = some e2 := he2
    rw [List.getElem?_take, if_pos hi2] at he2m
    show (spec.apply e2 (foldState spec sim.scenario.initial
      ((sim.scenario.timeline.take sim.cursor).take i))).error = none
    rw [List.take_take, inf_eq_left.mpr (Nat.le_of_lt hi2)]
    exact hInv.replay_ok i hi2 e2 he2m

/-- Replacing the scenario (which resets) establishes the invariant. -/
theorem invariant_set_scenario (spec : EventSpec E S) (sim : Simulation E S)
    (scenario : Scenario E S) :
    Invariant spec (Simulation.set_scenario sim scenario) :=
  invariant_reset spec { sim with scenario := scenario }

/-- The jump loop preserves the invariant along transition-error-free
executions. -/
theorem invariant_jumpLoop (spec : EventSpec E S) :
    ∀ (fuel : Nat) (sim : Simulation E S) (location : Nat),
      Invariant spec sim →
      isTransitionErr (jumpLoop spec fuel sim location).2 = false →
      Invariant spec (jumpLoop spec fuel sim location).1 := by
  intro fuel
  induction fuel with
  | zero =>
    intro sim location hInv _
    exact hInv
  | succ fuel ih =>
    intro sim location hInv hnt
    rw [jumpLoop] at hnt ⊢
    by_cases hc : sim.cursor < location
    · simp only [hc, if_true] at hnt ⊢
      rcases hstep : Simulation.step spec sim with ⟨next, opt⟩
      rcases opt with _ | err
      · rw [hstep] at hnt
        have hInv2 : Invariant spec next := by
          have h2 := invariant_step spec sim hInv (by rw [hstep]; rfl)
          rw [hstep] at h2
          exact h2
        exact ih next location hInv2 hnt
      · rw [hstep] at hnt
        have h2 := invariant_step spec sim hInv (by rw [hstep]; exact hnt)
        rw [hstep] at h2
        exact h2
    · simp only [hc, if_false] at hnt ⊢
      exact hInv

/-- The run loop preserves the invariant along transition-error-free
executions. -/
theorem invariant_runFuel (spec : EventSpec E S) :
    ∀ (fuel : Nat) (sim : Simulation E S),
      Invariant spec sim →
      isTransitionErr (runFuel spec fuel sim).2 = false →
      Invariant spec (runFuel spec fuel sim).1 := by
  intro fuel
  induction fuel with
  | zero =>
    intro sim hInv _
    exact hInv
  | succ fuel ih =>
    intro sim hInv hnt
    rw [runFuel] at hnt ⊢
    by_cases hc : sim.cursor < sim.scenario.timeline.length
    · simp only [hc, if_true] at hnt ⊢
      rcases hstep : Simulation.step spec sim with ⟨next, opt⟩
      rcases opt with _ | err
      · rw [hstep] at hnt
        have hInv2 : Invariant spec next := by
          have h2 := invariant_step spec sim hInv (by rw [hstep]; rfl)
          rw [hstep] at h2
          exact h2
        exact ih next hInv2 hnt
      · rw [hstep] at hnt
        have h2 := invariant_step spec sim hInv (by rw [hstep]; exact hnt)
        rw [hstep] at h2
        exact h2
    · simp only [hc, if_false] at hnt ⊢
      exact hInv

/-- A jump preserves the invariant along transition-error-free
executions. -/
theorem invariant_jump (spec : EventSpec E S) (sim : Simulation E S) (location : Nat)
    (hInv : Invariant spec sim)
    (hnt : isTransitionErr (Simulation.jump spec sim location).2 = false) :
    Invariant spec (Simulation.jump spec sim location).1 := by
  rw [Simulation.jump] at hnt ⊢
  by_cases h1 : location > sim.scenario.timeline.length
  · simp only [h1, if_true] at hnt ⊢
    exact hInv
  · simp only [h1, if_false] at hnt ⊢
    by_cases h2 : location < sim.cursor
    · simp only [h2, if_true] at hnt ⊢
      exact invariant_jumpLoop spec location (Simulation.reset sim) location
        (invariant_reset spec sim) hnt
    · simp only [h2, if_false] at hnt ⊢
      exact invariant_jumpLoop spec (location - sim.cursor) sim location hInv hnt

/-- Every simulation reachable from an invariant-satisfying simulation by
the public operations, without transition errors, satisfies the
invariant. -/
theorem reaches_invariant (spec : EventSpec E S) {a sim : Simulation E S}
    (h : Reaches spec a sim) (ha : Invariant spec a) : Invariant spec sim := by
  induction h with
  | refl => exact ha
  | step s _ hnt ih => exact invariant_step spec s ih hnt
  | reset s _ _ => exact invariant_reset spec s
  | jump s loc _ hnt ih => exact invariant_jump spec s loc ih hnt
  | run s fuel _ hnt ih => exact invariant_runFuel spec fuel s ih hnt
  | push_event s ev _ ih => exact invariant_push_event spec s ev ih
  | truncate s _ ih => exact invariant_truncate spec s ih
  | set_scenario s sc _ _ => exact invariant_set_scenario spec s sc

/-- C1: after any sequence of the public operations (step, reset, jump,
run, push_event, truncate, set_scenario) starting from a simulation built
from a scenario, in which no `apply` call returned a `TransitionError`, the
current state equals the left fold of `apply` over `timeline[0..cursor]`
starting from the initial state of the (current) scenario. -/
theorem c1_current_state_is_fold (spec : EventSpec E S) (scenario : Scenario E S)
    (sim : Simulation E S)
    (h : Reaches spec (Simulation.fromScenario scenario) sim) :
    sim.current_state =
      foldState spec sim.scenario.initial (sim.scenario.timeline.take sim.cursor) :=
  (reaches_invariant spec h (invariant_fromScenario spec scenario)).state_eq

/-- Witness for C1: one step over a one-event timeline. -/
theorem c1_current_state_is_fold_witness :
    (Simulation.step testSpec
      (Simulation.fromScenario { initial := 0, timeline := [Ev.incr] })).1.current_state =
      foldState testSpec
        (Simulation.step testSpec
          (Simulation.fromScenario { initial := 0, timeline := [Ev.incr] })).1.scenario.initial
        ((Simulation.step testSpec
          (Simulation.fromScenario { initial := 0, timeline := [Ev.incr] })).1.scenario.timeline.take
          (Simulation.step testSpec
            (Simulation.fromScenario { initial := 0, timeline := [Ev.incr] })).1.cursor) :=
  c1_current_state_is_fold testSpec { initial := 0, timeline := [Ev.incr] } _
    (Reaches.step _ _ (Reaches.refl _) rfl)

/-- Splitting a bounded iteration of `step`: running `m + n` steps first
runs `m` steps, then, if no error occurred, `n` more. -/
theorem stepN_add (spec : EventSpec E S) :
    ∀ (m n : Nat) (sim : Simulation E S),
      stepN spec (m + n) sim =
        match stepN spec m sim with
        | (s, some e) => (s, some e)
        | (s, none) => stepN spec n s := by
  intro m
  induction m with
  | zero =>
    intro n sim
    rw [Nat.zero_add]
    rfl
  | succ m ih =>
    intro n sim
    have hadd : m + 1 + n = (m + n) + 1 := by omega
    rw [hadd, stepN]
    rcases hstep : Simulation.step spec sim with ⟨next, opt⟩
    rcases opt with _ | err
    · show stepN spec (m + n) next =
        match stepN spec (m + 1) sim with
        | (s, some e) => (s, some e)
        | (s, none) => stepN spec n s
      rw [ih n next]
      conv_rhs => rw [stepN, hstep]
    · conv_rhs => rw [stepN, hstep]

/-- When `n` steps succeed, the cursor advances by exactly `n`. -/
theorem stepN_ok_cursor (spec : EventSpec E S) :
    ∀ (n : Nat) (sim : Simulation E S), (stepN spec n sim).2 = none →
      (stepN spec n sim).1.cursor = sim.cursor + n := by
  intro n
  induction n with
  | zero =>
    intro sim _
    rfl
  | succ n ih =>
    intro sim h
    rw [stepN] at h ⊢
    rcases hstep : Simulation.step spec sim with ⟨next, opt⟩
    rcases opt with _ | err
    · rw [hstep] at h
      have h2 : (stepN spec n next).2 = none := h
      have hc : next.cursor = sim.cursor + 1 := by
        have h3 := step_ok_cursor spec sim (by rw [hstep])
        rw [hstep] at h3
        exact h3
      show (stepN spec n next).1.cursor = sim.cursor + (n + 1)
      rw [ih next h2, hc]
      omega
    · rw [hstep] at h
      simp at h

/-- Iterated steps never shrink the timeline. -/
theorem stepN_len_mono (spec : EventSpec E S) :
    ∀ (n : Nat) (sim : Simulation E S),
      sim.scenario.timeline.length ≤ (stepN spec n sim).1.scenario.timeline.length := by
  intro n
  induction n with
  | zero =>
    intro sim
    exact Nat.le_refl _
  | succ n ih =>
    intro sim
    rw [stepN]
    rcases hstep : Simulation.step spec sim with ⟨next, opt⟩
    have hmono : sim.scenario.timeline.length ≤ next.scenario.timeline.length := by
      have := step_len_mono spec sim
      rw [hstep] at this
      exact this
    rcases opt with _ | err
    · exact Nat.le_trans hmono (ih next)
    · exact hmono

/-- Replay under the invariant and without insertions: after a reset,
`k <= cursor` steps succeed and land exactly on the fold state at `k`,
with the scenario untouched. -/
theorem stepN_replay (spec : EventSpec E S) (sim : Simulation E S)
    (hni : NoInsertions spec) (hInv : Invariant spec sim) :
    ∀ k, k ≤ sim.cursor →
      stepN spec k (Simulation.reset sim) =
        ({ scenario := sim.scenario,
           current_state := foldState spec sim.scenario.initial
             (sim.scenario.timeline.take k),
           cursor := k }, none) := by
  intro k
  induction k with
  | zero =>
    intro _
    rfl
  | succ k ih =>
    intro hk
    have hk1 : k ≤ sim.cursor := Nat.le_of_succ_le hk
    have hkc : k < sim.cursor := hk
    have hklen : k < sim.scenario.timeline.length := Nat.lt_of_lt_of_le hkc hInv.cursor_le
    obtain ⟨e, he⟩ : ∃ e, sim.scenario.timeline[k]? = some e :=
      ⟨_, List.getElem?_eq_getElem hklen⟩
    have hok := hInv.replay_ok k hkc e he
    have hstep := step_of_apply_ok spec
      { scenario := sim.scenario,
        current_state := foldState spec sim.scenario.initial (sim.scenario.timeline.take k),
        cursor := k } e he hok
    have hins : (spec.apply e (foldState spec sim.scenario.initial
        (sim.scenario.timeline.take k))).insertions = [] := hni e _
    have hfold : foldState spec sim.scenario.initial (sim.scenario.timeline.take (k + 1)) =
        (spec.apply e (foldState spec sim.scenario.initial
          (sim.scenario.timeline.take k))).state := by
      rw [List.take_succ, he, Option.toList_some, foldState, List.foldl_append]
      rfl
    rw [stepN_add spec k 1 (Simulation.reset sim), ih hk1]
    show stepN spec 1
      { scenario := sim.scenario,
        current_state := foldState spec sim.scenario.initial (sim.scenario.timeline.take k),
        cursor := k } = _
    rw [stepN, hstep, hins]
    rw [hfold]
    rfl

/-- The jump loop with fuel `location - cursor` is exactly `stepN` with the
same fuel. -/
theorem jumpLoop_eq_stepN (spec : EventSpec E S) :
    ∀ (fuel : Nat) (sim : Simulation E S) (location : Nat),
      sim.cursor + fuel = location →
      jumpLoop spec fuel sim location = stepN spec fuel sim := by
  intro fuel
  induction fuel with
  | zero =>
    intro sim location _
    rfl
  | succ fuel ih =>
    intro sim location hloc
    have hc : sim.cursor < location := by omega
    rw [jumpLoop, if_pos hc, stepN]
    rcases hstep : Simulation.step spec sim with ⟨next, opt⟩
    rcases opt with _ | err
    · have hcur : next.cursor = sim.cursor + 1 := by
        have := step_ok_cursor spec sim (by rw [hstep])
        rw [hstep] at this
        exact this
      exact ih next location (by omega)
    · rfl

/-- Jumping to the cursor position of a simulation that was just produced
by a successful bounded step run (with the target within the timeline) is a
no-op. -/
theorem stepN_jump_fixpoint (spec : EventSpec E S) (start : Simulation E S)
    (fuel location : Nat)
    (hfuel : start.cursor + fuel = location)
    (hlen : location ≤ start.scenario.timeline.length)
    (hsucc : (stepN spec fuel start).2 = none) :
    Simulation.jump spec (stepN spec fuel start).1 location =
      ((stepN spec fuel start).1, none) := by
  have hcur := stepN_ok_cursor spec fuel start hsucc
  have hmono := stepN_len_mono spec fuel start
  rw [Simulation.jump]
  have h1 : ¬ location > (stepN spec fuel start).1.scenario.timeline.length := by omega
  rw [if_neg h1]
  have h2 : ¬ location < (stepN spec fuel start).1.cursor := by omega
  rw [if_neg h2]
  have h3 : location - (stepN spec fuel start).1.cursor = 0 := by omega
  rw [h3]
  rfl

/-- Counterexample to C2 as stated: on the reachable simulation obtained by
one step over the scenario `[insIncr]` (timeline now `[insIncr, incr]`,
cursor 1), `jump 2` succeeds and leaves the timeline `[insIncr, incr]`,
while `reset` followed by two steps re-applies `insIncr`, which stages its
insertion again, leaving the longer timeline `[insIncr, incr, incr]`; the
two outcomes differ although `2 <= len(timeline)`. -/
theorem c2_counterexample :
    Simulation.jump testSpec
        (Simulation.step testSpec
          (Simulation.fromScenario { initial := 0, timeline := [Ev.insIncr] })).1 2 ≠
      stepN testSpec 2
        (Simulation.reset
          (Simulation.step testSpec
            (Simulation.fromScenario { initial := 0, timeline := [Ev.insIncr] })).1) := by
  decide

/-- C2 (amended): `jump(k)` immediately after a successful `jump(k)`
changes nothing; and `jump(location)` for `location <= len(timeline)`
coincides with `reset()` followed by `location` steps provided the
simulation satisfies the replay invariant and no event stages insertions
(the equivalence fails for insertion-staging events, see the
counterexample). -/
theorem c2_jump_amended (spec : EventSpec E S) (sim : Simulation E S) (location : Nat) :
    ((Simulation.jump spec sim location).2 = none →
      Simulation.jump spec (Simulation.jump spec sim location).1 location =
        ((Simulation.jump spec sim location).1, none)) ∧
    (NoInsertions spec → Invariant spec sim →
      location ≤ sim.scenario.timeline.length →
      Simulation.jump spec sim location = stepN spec location (Simulation.reset sim)) := by
  constructor
  · intro hsucc
    by_cases h1 : location > sim.scenario.timeline.length
    · rw [Simulation.jump, if_pos h1] at hsucc
      simp at hsucc
    · have hloc := not_lt.1 h1
      by_cases h2 : location < sim.cursor
      · have hr : Simulation.jump spec sim location =
            stepN spec location (Simulation.reset sim) := by
          rw [Simulation.jump, if_neg h1, if_pos h2]
          exact jumpLoop_eq_stepN spec location (Simulation.reset sim) location
            (by simp [Simulation.reset])
        rw [hr] at hsucc ⊢
        exact stepN_jump_fixpoint spec (Simulation.reset sim) location location
          (by simp [Simulation.reset]) (by simpa [Simulation.reset] using hloc) hsucc
      · have hcle := not_lt.1 h2
        have hr : Simulation.jump spec sim location =
            stepN spec (location - sim.cursor) sim := by
          rw [Simulation.jump, if_neg h1, if_neg h2]
          exact jumpLoop_eq_stepN spec (location - sim.cursor) sim location (by omega)
        rw [hr] at hsucc ⊢
        exact stepN_jump_fixpoint spec sim (location - sim.cursor) location
          (by omega) hloc hsucc
  · intro hni hInv hloc
    rw [Simulation.jump]
    have hngt : ¬ location > sim.scenario.timeline.length := not_lt.mpr hloc
    rw [if_neg hngt]
    by_cases h2 : location < sim.cursor
    · rw [if_pos h2]
      exact jumpLoop_eq_stepN spec location (Simulation.reset sim) location
        (by simp [Simulation.reset])
    · rw [if_neg h2]
      have hcle : sim.cursor ≤ location := not_lt.1 h2
      rw [jumpLoop_eq_stepN spec (location - sim.cursor) sim location (by omega)]
      have hsplit : location = sim.cursor + (location - sim.cursor) := by omega
      conv_rhs => rw [hsplit]
      rw [stepN_add spec sim.cursor (location - sim.cursor) (Simulation.reset sim)]
      rw [stepN_replay spec sim hni hInv sim.cursor (Nat.le_refl _)]
      show stepN spec (location - sim.cursor) sim =
        stepN spec (location - sim.cursor)
          { scenario := sim.scenario,
            current_state := foldState spec sim.scenario.initial
              (sim.scenario.timeline.take sim.cursor),
            cursor := sim.cursor }
      rw [← hInv.state_eq]

/-- Witness for the amended C2: a fresh one-event simulation over the
insertion-free specification. -/
theorem c2_jump_amended_witness :
    Simulation.jump pureSpec
        (Simulation.jump pureSpec
          (Simulation.fromScenario { initial := 0, timeline := [Ev.incr] }) 1).1 1 =
      ((Simulation.jump pureSpec
        (Simulation.fromScenario { initial := 0, timeline := [Ev.incr] }) 1).1, none) ∧
    Simulation.jump pureSpec
        (Simulation.fromScenario { initial := 0, timeline := [Ev.incr] }) 1 =
      stepN pureSpec 1
        (Simulation.reset (Simulation.fromScenario { initial := 0, timeline := [Ev.incr] })) :=
  ⟨(c2_jump_amended pureSpec
      (Simulation.fromScenario { initial := 0, timeline := [Ev.incr] }) 1).1 (by decide),
   (c2_jump_amended pureSpec
      (Simulation.fromScenario { initial := 0, timeline := [Ev.incr] }) 1).2
     (fun e s => rfl)
     (invariant_fromScenario pureSpec { initial := 0, timeline := [Ev.incr] })
     (by decide)⟩
